import Mathlib

/-!
# Verification of the resilient WebSocket connection manager

Shallow embedding of `src/core/websocket_worker.py` (`BaseWebSocketWorker`).

The worker runs an asyncio event loop in its own thread (`run`), which drives
`_maintain_connection`: an outer reconnect loop (connect, then an inner
per-second tick loop doing subscription reconciliation, keep-alive pings and
heartbeat/zombie detection), with an exponential-backoff retry policy and a
thread-safe `stop`/cancellation path.

Modelling choices:
* Wall-clock reads (`time.time()`), the outcomes of the abstract subclass
  hooks (`_connect_and_subscribe`, `_update_subscriptions`, `_send_ping`),
  owner-thread mutation of `self.pairs`, the reader coroutine's updates of
  `self._last_message_time`, and the points at which `stop()` /
  task-cancellation are observed, are all supplied by a script (an oracle):
  one `AttemptScript` per outer-loop iteration, one `TickInput` per inner-loop
  iteration.  A run whose script is exhausted before the loop exits is an
  incomplete (out-of-fuel) run.
* Qt signal emissions become an explicit event trace (`Event`); calls into the
  abstract subscription hook and into `should_retry` are also recorded as
  trace markers so that claims about "a call is issued" are statable.
* Time is `Rat` (the source uses floats only for comparisons and message
  formatting; the `"{x:.1f}"` decimal formatting is abstracted to `toString`).
* `_connect_and_subscribe` is modelled as establishing the subscribed set
  (its documented effect); it does not touch other worker state.
-/

/-- `ConnectionState` enum from `websocket_worker.py`. -/
inductive ConnectionState
  | disconnected
  | connecting
  | connected
  | reconnecting
  | failed
deriving DecidableEq, Repr

/-- The `.value` string of each enum member. -/
def ConnectionState.value : ConnectionState → String
  | .disconnected => "disconnected"
  | .connecting => "connecting"
  | .connected => "connected"
  | .reconnecting => "reconnecting"
  | .failed => "failed"

/-- Modelled from the spec: `ReconnectStrategy` lives in
`core/reconnect_strategy.py`, which is not under `src/`.  Per spec §4.2 it
owns `retry_count`, a maximum-retry bound (or unbounded, the default posture),
and an exponentially increasing, bounded-above delay schedule. -/
structure ReconnectStrategy where
  retry_count : Nat
  max_retries : Option Nat
  base_delay : Rat
  max_delay : Rat
deriving DecidableEq, Repr

/-- Modelled from the spec: "`should_retry() -> bool` returns false once the
retry budget is exhausted (bounded mode) or always true (unbounded mode)". -/
def ReconnectStrategy.should_retry (s : ReconnectStrategy) : Bool :=
  match s.max_retries with
  | none => true
  | some m => decide (s.retry_count < m)

/-- Modelled from the spec: the delay is an exponentially increasing function
of `retry_count`, bounded above. -/
def ReconnectStrategy.delay_at (s : ReconnectStrategy) : Rat :=
  min (s.base_delay * 2 ^ s.retry_count) s.max_delay

/-- Modelled from the spec: "`next_delay() -> duration` returns an
exponentially increasing delay as a function of `retry_count`, then increments
`retry_count`". -/
def ReconnectStrategy.next_delay (s : ReconnectStrategy) : Rat × ReconnectStrategy :=
  (s.delay_at, { s with retry_count := s.retry_count + 1 })

/-- Modelled from the spec: "`reset()` zeroes `retry_count`". -/
def ReconnectStrategy.reset (s : ReconnectStrategy) : ReconnectStrategy :=
  { s with retry_count := 0 }

/-- Python set equality for sets represented by element lists: two lists
denote the same set exactly when each is contained in the other.  This is the
executable meaning of `set(current_pairs) != self._subscribed_pairs`. -/
def setEqB (a b : List String) : Bool :=
  a.all (fun x => b.contains x) && b.all (fun x => a.contains x)

/-- The mutable instance state of `BaseWebSocketWorker` (`__init__`).
`subscribed_pairs` is a python `set`, represented by a list of its
elements and always compared with set semantics (`setEqB`). -/
structure WorkerState where
  pairs : List String
  running : Bool
  strategy : ReconnectStrategy
  connection_state : ConnectionState
  subscribed_pairs : List String
  last_message_time : Rat
  connection_start_time : Rat
  total_reconnect_count : Nat
  last_error : String
  connection_timeout : Rat
  ping_interval : Rat

/-- Payload of the `stats_updated` signal (`_update_stats`). -/
structure StatsSnapshot where
  state : String
  reconnect_count : Nat
  retry_count : Nat
  subscribed_pairs : Nat
  connection_duration : Rat
  last_message_age : Rat
  last_error : String
deriving DecidableEq, Repr

/-- Observable trace events.  `stateChanged`/`connStatus`/`statsUpdated` are
the Qt signal emissions; `sleep` records an awaited delay;
`updateSubscriptionsCalled`, `pingSent` and `shouldRetryCalled` are markers
for calls into the reconciliation hook, the ping hook and the backoff
policy. -/
inductive Event
  | stateChanged (state : ConnectionState) (message : String) (retryCount : Nat)
  | connStatus (connected : Bool) (message : String)
  | statsUpdated (stats : StatsSnapshot)
  | sleep (duration : Rat)
  | updateSubscriptionsCalled
  | pingSent
  | shouldRetryCalled (result : Bool)
deriving DecidableEq, Repr

/-- `_update_connection_state`: set the state and emit
`connection_state_changed (state, message, retry_count)` followed by the
legacy `connection_status (is_connected, message)`. -/
def update_connection_state (w : WorkerState) (state : ConnectionState) (message : String) :
    WorkerState × List Event :=
  let w2 := { w with connection_state := state }
  let retry_count :=
    if state = ConnectionState.reconnecting then w.strategy.retry_count else 0
  let is_connected : Bool :=
    if state = ConnectionState.connected ∨ state = ConnectionState.connecting then true else false
  (w2, [Event.stateChanged state message retry_count, Event.connStatus is_connected message])

/-- `_update_stats`: build and emit the statistics snapshot.  `now` stands for
the `time.time()` reads inside the method. -/
def update_stats (w : WorkerState) (now : Rat) : Event :=
  Event.statsUpdated
    { state := w.connection_state.value
      reconnect_count := w.total_reconnect_count
      retry_count := w.strategy.retry_count
      subscribed_pairs := w.subscribed_pairs.dedup.length
      connection_duration :=
        if w.connection_start_time > 0 then now - w.connection_start_time else 0
      last_message_age :=
        if w.last_message_time > 0 then now - w.last_message_time else 0
      last_error := w.last_error }

/-- Abstraction of python's `"{x:.1f}"` float formatting. -/
def fmt1 (q : Rat) : String := toString q

def connectingMsg (attempt : Nat) : String :=
  "Connecting... (attempt " ++ toString attempt ++ ")"

def heartbeatErr (age : Rat) : String :=
  "Heartbeat timeout: " ++ fmt1 age ++ "s"

def heartbeatMsg (age : Rat) : String :=
  "Heartbeat timeout after " ++ fmt1 age ++ "s, reconnecting..."

def connFailedMsg (e : String) : String := "Connection failed: " ++ e

def maxRetriesMsg (e : String) : String := "Max retries exceeded: " ++ e

def fatalErrorMsg (e : String) : String := "Fatal error: " ++ e

/-- Executable rational subtraction.  `Rat.sub` is `@[irreducible]`, which
blocks kernel evaluation of concrete runs; this equivalent form (see
`ratSub_eq`) reduces.  Used verbatim for the `time.time() - t` expressions of
the loop. -/
def ratSub (a b : Rat) : Rat :=
  mkRat (a.num * b.den - b.num * a.den) (a.den * b.den)

theorem ratSub_eq (a b : Rat) : ratSub a b = a - b :=
  (Rat.sub_def' a b).symm

/-- Oracle input for one iteration of the inner per-tick loop
(lines 154-177 of `websocket_worker.py`). -/
structure TickInput where
  /-- `stop()` on the owner thread set `self._running = False` before this
  iteration's `while self._running` read. -/
  stopRequested : Bool
  /-- task cancellation delivered at the `await asyncio.sleep(1)` point -/
  cancelAtSleep : Bool
  /-- the subclass reader coroutine recorded an inbound message, setting
  `self._last_message_time` to this time -/
  msgUpdate : Option Rat
  /-- the owner-thread-visible value of `self.pairs`, read as a copy -/
  pairsNow : List String
  /-- outcome of `await self._update_subscriptions()` (consulted only when the
  desired and subscribed sets differ): the new subscribed set, or a raised
  error -/
  subsResult : Except String (List String)
  /-- `time.time()` at the ping-due check -/
  timePingCheck : Rat
  /-- outcome of `await self._send_ping()`: `none` = returned normally (the
  base-class default `pass` always does), `some e` = an override raised `e` -/
  pingResult : Option String
  /-- `time.time()` stamped into `last_ping_time` after a successful ping -/
  timePingStamp : Rat
  /-- `time.time()` at the heartbeat/zombie check -/
  timeSilence : Rat

/-- How one tick ends. -/
inductive TickOutcome
  | next
  | stopped
  | silence
  | raised (msg : String)
  | cancelled
deriving DecidableEq, Repr

/-- Step 3 of the tick: heartbeat / zombie detection (lines 168-177). -/
def tickSilence (w : WorkerState) (last_ping_time : Rat) (t : TickInput) (acc : List Event) :
    WorkerState × Rat × List Event × TickOutcome :=
  if w.last_message_time > 0 ∧ ratSub t.timeSilence w.last_message_time > w.connection_timeout then
    let age := ratSub t.timeSilence w.last_message_time
    let w2 := { w with last_error := heartbeatErr age }
    let r := update_connection_state w2 ConnectionState.reconnecting (heartbeatMsg age)
    (r.1, last_ping_time, acc ++ r.2, TickOutcome.silence)
  else
    (w, last_ping_time, acc, TickOutcome.next)

/-- Step 2 of the tick: the active keep-alive ping (lines 163-166), then the
heartbeat check. -/
def tickPing (w : WorkerState) (last_ping_time : Rat) (t : TickInput) (acc : List Event) :
    WorkerState × Rat × List Event × TickOutcome :=
  if ratSub t.timePingCheck last_ping_time > w.ping_interval then
    match t.pingResult with
    | some e => (w, last_ping_time, acc ++ [Event.pingSent], TickOutcome.raised e)
    | none => tickSilence w t.timePingStamp t (acc ++ [Event.pingSent])
  else
    tickSilence w last_ping_time t acc

/-- One iteration of the inner keep-alive loop (lines 154-177): loop-head
`_running` check, `await asyncio.sleep(1)`, subscription reconciliation,
ping, heartbeat check. -/
def tickStep (w : WorkerState) (last_ping_time : Rat) (t : TickInput) :
    WorkerState × Rat × List Event × TickOutcome :=
  let w1 := if t.stopRequested then { w with running := false } else w
  if w1.running = false then
    (w1, last_ping_time, [], TickOutcome.stopped)
  else if t.cancelAtSleep then
    (w1, last_ping_time, [Event.sleep 1], TickOutcome.cancelled)
  else
    let w2 :=
      match t.msgUpdate with
      | none => w1
      | some tm => { w1 with last_message_time := tm }
    if setEqB t.pairsNow w2.subscribed_pairs then
      tickPing w2 last_ping_time t [Event.sleep 1]
    else
      match t.subsResult with
      | Except.error e =>
        (w2, last_ping_time, [Event.sleep 1, Event.updateSubscriptionsCalled],
          TickOutcome.raised e)
      | Except.ok s =>
        tickPing { w2 with subscribed_pairs := s } last_ping_time t
          [Event.sleep 1, Event.updateSubscriptionsCalled]

/-- How the inner loop as a whole ends. -/
inductive InnerOutcome
  | stopped
  | silence
  | raised (msg : String)
  | cancelled
  | outOfTicks
deriving DecidableEq, Repr

/-- The inner keep-alive loop, driven by a list of tick oracles. -/
def innerLoop (w : WorkerState) (last_ping_time : Rat) :
    List TickInput → WorkerState × Rat × List Event × InnerOutcome
  | [] => (w, last_ping_time, [], InnerOutcome.outOfTicks)
  | t :: ts =>
    match tickStep w last_ping_time t with
    | (w1, l1, evs, TickOutcome.next) =>
      let r := innerLoop w1 l1 ts
      (r.1, r.2.1, evs ++ r.2.2.1, r.2.2.2)
    | (w1, l1, evs, TickOutcome.stopped) => (w1, l1, evs, InnerOutcome.stopped)
    | (w1, l1, evs, TickOutcome.silence) => (w1, l1, evs, InnerOutcome.silence)
    | (w1, l1, evs, TickOutcome.raised e) => (w1, l1, evs, InnerOutcome.raised e)
    | (w1, l1, evs, TickOutcome.cancelled) => (w1, l1, evs, InnerOutcome.cancelled)

/-- Result of a successful `await self._connect_and_subscribe()`:
the time of the `time.time()` read that seeds `last_ping_time`, and the
subscribed set the subclass established. -/
structure ConnectOk where
  connectTime : Rat
  subscribed : List String

/-- Oracle input for one iteration of the outer reconnect loop
(lines 135-196). -/
structure AttemptScript where
  /-- `stop()` set `self._running = False` before the outer `while` read -/
  stopBeforeAttempt : Bool
  /-- task cancellation delivered during `await self._connect_and_subscribe()` -/
  cancelAtConnect : Bool
  /-- outcome of `await self._connect_and_subscribe()` -/
  connectResult : Except String ConnectOk
  /-- tick oracles for the inner loop of this attempt -/
  ticks : List TickInput
  /-- task cancellation delivered during the backoff `await asyncio.sleep(delay)` -/
  cancelAtBackoff : Bool

/-- How `_maintain_connection` as a whole ends. -/
inductive MaintainOutcome
  | finished
  | cancelled
  | raised (msg : String)
  | outOfFuel
deriving DecidableEq, Repr

inductive OuterControl
  | continueLoop
  | exit (outcome : MaintainOutcome)
deriving DecidableEq, Repr

/-- The worker state right after a successful connect: the subclass has
established the subscribed set, `_reconnect_strategy.reset()` ran, and the
state machine was moved `CONNECTING` then `CONNECTED`. -/
def connectedState (w : WorkerState) (c : ConnectOk) : WorkerState :=
  { w with
    connection_state := ConnectionState.connected
    strategy := w.strategy.reset
    subscribed_pairs := c.subscribed }

/-- The `except Exception` handler of `_maintain_connection`
(lines 181-196): record the error, consult the backoff policy; on retry emit
`RECONNECTING`, bump the lifetime reconnect counter and await the backoff
delay; otherwise emit `FAILED` and re-raise. -/
def failureHandler (w : WorkerState) (e : String) (cancelAtBackoff : Bool) :
    WorkerState × List Event × OuterControl :=
  let w1 := { w with last_error := e }
  if w1.strategy.should_retry then
    let r := update_connection_state w1 ConnectionState.reconnecting (connFailedMsg e)
    let w2 := { r.1 with total_reconnect_count := r.1.total_reconnect_count + 1 }
    let nd := w2.strategy.next_delay
    let w3 := { w2 with strategy := nd.2 }
    if cancelAtBackoff then
      (w3, Event.shouldRetryCalled true :: r.2 ++ [Event.sleep nd.1],
        OuterControl.exit MaintainOutcome.cancelled)
    else
      (w3, Event.shouldRetryCalled true :: r.2 ++ [Event.sleep nd.1],
        OuterControl.continueLoop)
  else
    let r := update_connection_state w1 ConnectionState.failed (maxRetriesMsg e)
    (r.1, Event.shouldRetryCalled false :: r.2, OuterControl.exit (MaintainOutcome.raised e))

/-- The connected phase of one outer-loop iteration (lines 146-177): the
`CONNECTED` transition, the stats snapshot, and the inner keep-alive loop.
A silence break re-enters the outer loop; an exception from the inner loop
goes to `failureHandler`; a stop or cancellation exits. -/
def connectedPhase (w2 : WorkerState) (ct : Rat) (ticks : List TickInput) (cb : Bool) :
    WorkerState × List Event × OuterControl :=
  let rk := update_connection_state w2 ConnectionState.connected "Connected"
  let evsHead := rk.2 ++ [update_stats rk.1 ct]
  match innerLoop rk.1 ct ticks with
  | (w4, _, evsI, InnerOutcome.silence) =>
    (w4, evsHead ++ evsI, OuterControl.continueLoop)
  | (w4, _, evsI, InnerOutcome.stopped) =>
    (w4, evsHead ++ evsI, OuterControl.exit MaintainOutcome.finished)
  | (w4, _, evsI, InnerOutcome.cancelled) =>
    (w4, evsHead ++ evsI, OuterControl.exit MaintainOutcome.cancelled)
  | (w4, _, evsI, InnerOutcome.outOfTicks) =>
    (w4, evsHead ++ evsI, OuterControl.exit MaintainOutcome.outOfFuel)
  | (w4, _, evsI, InnerOutcome.raised e) =>
    let r := failureHandler w4 e cb
    (r.1, evsHead ++ evsI ++ r.2.1, r.2.2)

/-- One iteration of the outer reconnect loop (lines 135-196): `_running`
check, `CONNECTING` transition (the source's conditional here selects
`CONNECTING` in both branches), connect attempt, then on success the
connected phase (`CONNECTED` transition, stats, inner loop); exceptions go
to `failureHandler`. -/
def outerStep (w : WorkerState) (a : AttemptScript) : WorkerState × List Event × OuterControl :=
  let w0 := if a.stopBeforeAttempt then { w with running := false } else w
  if w0.running = false then
    (w0, [], OuterControl.exit MaintainOutcome.finished)
  else
    let rc := update_connection_state w0 ConnectionState.connecting
      (connectingMsg (w0.strategy.retry_count + 1))
    if a.cancelAtConnect then
      (rc.1, rc.2, OuterControl.exit MaintainOutcome.cancelled)
    else
      match a.connectResult with
      | Except.error e =>
        let r := failureHandler rc.1 e a.cancelAtBackoff
        (r.1, rc.2 ++ r.2.1, r.2.2)
      | Except.ok c =>
        let w2 := { rc.1 with
          strategy := rc.1.strategy.reset
          subscribed_pairs := c.subscribed }
        let r := connectedPhase w2 c.connectTime a.ticks a.cancelAtBackoff
        (r.1, rc.2 ++ r.2.1, r.2.2)

/-- `_maintain_connection`: the outer reconnect loop, driven by a list of
attempt oracles. -/
def maintainConnection (w : WorkerState) :
    List AttemptScript → WorkerState × List Event × MaintainOutcome
  | [] => (w, [], MaintainOutcome.outOfFuel)
  | a :: rest =>
    match outerStep w a with
    | (w1, evs, OuterControl.continueLoop) =>
      let r := maintainConnection w1 rest
      (r.1, evs ++ r.2.1, r.2.2)
    | (w1, evs, OuterControl.exit o) => (w1, evs, o)

/-- The preamble of `run` (lines 96-101): set `_running`, emit the initial
`CONNECTING` transition, reset the backoff policy. -/
def runStart (w : WorkerState) : WorkerState × List Event :=
  let w1 := { w with running := true }
  let r := update_connection_state w1 ConnectionState.connecting "Initializing connection..."
  ({ r.1 with strategy := r.1.strategy.reset }, r.2)

/-- `run` (lines 90-128): preamble, `_maintain_connection`, then the
`except asyncio.CancelledError` / `except Exception` / `finally` epilogue.
The boolean is `false` when the script was exhausted before the loop exited
(an incomplete run, whose epilogue never executed). -/
def runWorker (w : WorkerState) (script : List AttemptScript) :
    WorkerState × List Event × Bool :=
  let s := runStart w
  match maintainConnection s.1 script with
  | (w1, evs, MaintainOutcome.finished) =>
    let rd := update_connection_state w1 ConnectionState.disconnected "Connection closed"
    (rd.1, s.2 ++ evs ++ rd.2, true)
  | (w1, evs, MaintainOutcome.cancelled) =>
    let r1 := update_connection_state w1 ConnectionState.disconnected "Connection cancelled"
    let r2 := update_connection_state r1.1 ConnectionState.disconnected "Connection closed"
    (r2.1, s.2 ++ evs ++ r1.2 ++ r2.2, true)
  | (w1, evs, MaintainOutcome.raised e) =>
    let w1b := { w1 with last_error := e }
    let rf := update_connection_state w1b ConnectionState.failed (fatalErrorMsg e)
    let rd := update_connection_state rf.1 ConnectionState.disconnected "Connection closed"
    (rd.1, s.2 ++ evs ++ rf.2 ++ rd.2, true)
  | (w1, evs, MaintainOutcome.outOfFuel) => (w1, s.2 ++ evs, false)

/-- A fresh worker as built by `__init__`, with the spec-modelled default
backoff (unbounded retries, delays capped). -/
def initWorker (pairs : List String) : WorkerState :=
  { pairs := pairs
    running := false
    strategy := { retry_count := 0, max_retries := none, base_delay := 1, max_delay := 60 }
    connection_state := ConnectionState.disconnected
    subscribed_pairs := []
    last_message_time := 0
    connection_start_time := 0
    total_reconnect_count := 0
    last_error := ""
    connection_timeout := 5
    ping_interval := 20 }

/-- Is this a `connection_state_changed` emission with the given new state? -/
def isStateEv (s : ConnectionState) : Event → Bool
  | Event.stateChanged st _ _ => decide (st = s)
  | _ => false

/-- Number of `connection_state_changed` emissions with the given new state. -/
def stateCount (s : ConnectionState) (evs : List Event) : Nat :=
  (evs.filter (isStateEv s)).length

def stateOf : Event → Option ConnectionState
  | Event.stateChanged st _ _ => some st
  | _ => none

/-- The new state of the last `connection_state_changed` emission. -/
def lastStateChanged (evs : List Event) : Option ConnectionState :=
  (evs.filterMap stateOf).getLast?

/-- The `retry_count` payloads of the `RECONNECTING` emissions, in order. -/
def reconnectingCounts (evs : List Event) : List Nat :=
  evs.filterMap fun e =>
    match e with
    | Event.stateChanged ConnectionState.reconnecting _ rc => some rc
    | _ => none

def isShouldRetryEv : Event → Bool
  | Event.shouldRetryCalled _ => true
  | _ => false

def isSleepEv : Event → Bool
  | Event.sleep _ => true
  | _ => false

/-- Does a `CONNECTING` emission (a fresh connection attempt) occur at or
after the first `FAILED` emission? -/
def connectingAfterFailed (evs : List Event) : Bool :=
  ((evs.dropWhile fun e => !(isStateEv ConnectionState.failed e)).any
    (isStateEv ConnectionState.connecting))

/-! ## Concrete fixtures used by witnesses and counterexamples -/

/-- A worker whose `run` thread is active (`_running = True`). -/
def wRun : WorkerState := { initWorker [] with running := true }

/-- An attempt whose `_connect_and_subscribe` raises `e`. -/
def failAttempt (e : String) : AttemptScript :=
  { stopBeforeAttempt := false, cancelAtConnect := false,
    connectResult := Except.error e, ticks := [], cancelAtBackoff := false }

/-- A tick at which `stop()` has already flipped `_running`. -/
def stopTick : TickInput :=
  { stopRequested := true, cancelAtSleep := false, msgUpdate := none, pairsNow := [],
    subsResult := Except.ok [], timePingCheck := 0, pingResult := none,
    timePingStamp := 0, timeSilence := 0 }

/-- An attempt that connects successfully and then observes a stop request at
its first tick. -/
def okStopAttempt : AttemptScript :=
  { stopBeforeAttempt := false, cancelAtConnect := false,
    connectResult := Except.ok { connectTime := 0, subscribed := [] },
    ticks := [stopTick], cancelAtBackoff := false }

/-- An attempt that connects successfully and runs the given ticks. -/
def okAttempt (ts : List TickInput) : AttemptScript :=
  { stopBeforeAttempt := false, cancelAtConnect := false,
    connectResult := Except.ok { connectTime := 0, subscribed := [] },
    ticks := ts, cancelAtBackoff := false }

/-- An attempt at whose outer loop-head read `stop()` has already flipped
`_running`. -/
def stopAttempt : AttemptScript :=
  { stopBeforeAttempt := true, cancelAtConnect := false,
    connectResult := Except.error "", ticks := [], cancelAtBackoff := false }

/-- A tick with no inbound message, no subscription change, no due ping and a
heartbeat check at time `ts`. -/
def quietTick (ts : Rat) : TickInput :=
  { stopRequested := false, cancelAtSleep := false, msgUpdate := none, pairsNow := [],
    subsResult := Except.ok [], timePingCheck := 0, pingResult := none,
    timePingStamp := 0, timeSilence := ts }

/-! ## Basic lemmas -/

/-- `setEqB` is equality of the denoted sets. -/
theorem setEqB_eq_true_iff (a b : List String) :
    setEqB a b = true ↔ a.toFinset = b.toFinset := by
  unfold setEqB
  rw [Bool.and_eq_true, List.all_eq_true, List.all_eq_true]
  constructor
  · rintro ⟨h1, h2⟩
    ext x
    simp only [List.mem_toFinset]
    constructor
    · intro hx; simpa using h1 x hx
    · intro hx; simpa using h2 x hx
  · intro h
    have h' : ∀ x, x ∈ a ↔ x ∈ b := by
      intro x
      have := Finset.ext_iff.mp h x
      simpa using this
    exact ⟨fun x hx => by simpa using (h' x).mp hx, fun x hx => by simpa using (h' x).mpr hx⟩

/-! ## C8 / C9: the `_update_connection_state` emission payloads -/

/-- C8: for every state transition, the `connection_state_changed`
notification carries `retry_count` taken from the backoff state exactly when
the new state is `RECONNECTING`, and `0` for every other new state
(`websocket_worker.py` lines 61-67). -/
theorem C8_notification_retry_count (w : WorkerState) (st : ConnectionState) (m : String) :
    (update_connection_state w st m).2.head? =
      some (Event.stateChanged st m
        (if st = ConnectionState.reconnecting then w.strategy.retry_count else 0)) := by
  simp [update_connection_state]

/-- C9: for every state transition, the legacy `connection_status`
notification emitted alongside it reports `connected = True` exactly when the
new state is `CONNECTED` or `CONNECTING` (and hence `False` for
`DISCONNECTED`, `RECONNECTING` and `FAILED`; lines 69-71). -/
theorem C9_legacy_bool_status (w : WorkerState) (st : ConnectionState) (m : String) :
    (update_connection_state w st m).2.getLast? =
      some (Event.connStatus
        (if st = ConnectionState.connected ∨ st = ConnectionState.connecting then true else false)
        m) := by
  simp [update_connection_state]

/-! ## C7: strictness of the silence threshold -/

/-- C7 (amended): the silence threshold is strict, *provided the last
message's timestamp is positive*: with `silence_timeout = 5` and the last
message at any `t0 > 0`, a heartbeat check at `t0 + 5.1` triggers the
silence break, while a check at `t0 + a` for any elapsed age `a ≤ 5`
(in particular `4.9`) does not. -/
theorem C7_strict_threshold (t0 : Rat) (h : 0 < t0) :
    (tickStep { wRun with last_message_time := t0 } 0 (quietTick (t0 + 51/10))).2.2.2 =
      TickOutcome.silence
    ∧ ∀ a : Rat, a ≤ 5 →
        (tickStep { wRun with last_message_time := t0 } 0 (quietTick (t0 + a))).2.2.2 =
          TickOutcome.next := by
  have hbase : ∀ ts : Rat,
      tickStep { wRun with last_message_time := t0 } 0 (quietTick ts)
        = tickSilence { wRun with last_message_time := t0 } 0 (quietTick ts) [Event.sleep 1] := by
    intro ts
    simp +decide [tickStep, tickPing, quietTick, wRun, initWorker, setEqB]
  constructor
  · rw [hbase (t0 + 51/10)]
    unfold tickSilence
    rw [if_pos]
    refine ⟨h, ?_⟩
    show ratSub (t0 + 51/10) t0 > 5
    rw [ratSub_eq]
    linarith
  · intro a ha
    rw [hbase (t0 + a)]
    unfold tickSilence
    rw [if_neg]
    rintro ⟨-, h2⟩
    have h2' : ratSub (t0 + a) t0 > 5 := h2
    rw [ratSub_eq] at h2'
    have h3 : t0 + a - t0 = a := by ring
    rw [h3] at h2'
    linarith

/-- C7 witness: instance of `C7_strict_threshold` at `t0 = 1`, `a = 4.9`. -/
theorem C7_strict_threshold_witness :
    (0 : Rat) < 1
    ∧ (mkRat 49 10 : Rat) ≤ 5
    ∧ (tickStep { wRun with last_message_time := 1 } 0 (quietTick (1 + 51/10))).2.2.2 =
        TickOutcome.silence
    ∧ (tickStep { wRun with last_message_time := 1 } 0 (quietTick (1 + mkRat 49 10))).2.2.2 =
        TickOutcome.next :=
  ⟨by decide, by decide, (C7_strict_threshold 1 (by decide)).1,
    (C7_strict_threshold 1 (by decide)).2 (mkRat 49 10) (by decide)⟩

/-- C7 counterexample: at the claim's stated input — last message received at
time `0`, check at time `5.1` — the code does *not* transition to
`RECONNECTING`: a message stamped exactly `0` is indistinguishable from the
never-received sentinel (`self._last_message_time = 0`), so the heartbeat
check at line 169 is skipped entirely. -/
theorem C7_counterexample :
    (tickStep wRun 0 { quietTick (mkRat 51 10) with msgUpdate := some 0 }).2.2.2 =
      TickOutcome.next := by
  decide

/-- Reduction of `tickStep` when the loop is active: not stopped, and no
cancellation at the sleep point. -/
theorem tickStep_active (w : WorkerState) (l : Rat) (t : TickInput)
    (hs : t.stopRequested = false) (hr : w.running = true) (hc : t.cancelAtSleep = false) :
    tickStep w l t =
      (let w2 :=
        match t.msgUpdate with
        | none => w
        | some tm => { w with last_message_time := tm }
      if setEqB t.pairsNow w2.subscribed_pairs then
        tickPing w2 l t [Event.sleep 1]
      else
        match t.subsResult with
        | Except.error e =>
          (w2, l, [Event.sleep 1, Event.updateSubscriptionsCalled], TickOutcome.raised e)
        | Except.ok s =>
          tickPing { w2 with subscribed_pairs := s } l t
            [Event.sleep 1, Event.updateSubscriptionsCalled]) := by
  unfold tickStep
  simp [hs, hr, hc]

theorem tickSilence_lmt0 (w : WorkerState) (l : Rat) (t : TickInput) (acc : List Event)
    (h0 : w.last_message_time = 0) :
    (tickSilence w l t acc).2.2.2 = TickOutcome.next
    ∧ (tickSilence w l t acc).1.last_message_time = 0 := by
  unfold tickSilence
  rw [if_neg]
  · exact ⟨rfl, h0⟩
  · rintro ⟨h1, -⟩
    rw [h0] at h1
    exact lt_irrefl 0 h1

theorem tickPing_lmt0 (w : WorkerState) (l : Rat) (t : TickInput) (acc : List Event)
    (h0 : w.last_message_time = 0) :
    ((tickPing w l t acc).2.2.2 = TickOutcome.next
      ∨ ∃ e, (tickPing w l t acc).2.2.2 = TickOutcome.raised e)
    ∧ (tickPing w l t acc).1.last_message_time = 0 := by
  unfold tickPing
  split
  · cases hp : t.pingResult with
    | some e => simp [hp, h0]
    | none =>
      obtain ⟨ho, hl⟩ := tickSilence_lmt0 w t.timePingStamp t (acc ++ [Event.pingSent]) h0
      simp [hp, ho, hl]
  · obtain ⟨ho, hl⟩ := tickSilence_lmt0 w l t acc h0
    simp [ho, hl]

theorem tickStep_lmt0 (w : WorkerState) (l : Rat) (t : TickInput)
    (hm : t.msgUpdate = none) (h0 : w.last_message_time = 0) :
    (tickStep w l t).2.2.2 ≠ TickOutcome.silence
    ∧ (tickStep w l t).1.last_message_time = 0 := by
  cases hs : t.stopRequested with
  | true =>
    constructor
    · show ¬ _
      unfold tickStep
      simp [hs]
    · unfold tickStep
      simp [hs, h0]
  | false =>
    cases hr : w.running with
    | false =>
      constructor
      · unfold tickStep; simp [hs, hr]
      · unfold tickStep; simp [hs, hr, h0]
    | true =>
      cases hc : t.cancelAtSleep with
      | true =>
        constructor
        · unfold tickStep; simp [hs, hr, hc]
        · unfold tickStep; simp [hs, hr, hc, h0]
      | false =>
        rw [tickStep_active w l t hs hr hc, hm]
        simp only []
        cases hq : setEqB t.pairsNow w.subscribed_pairs with
        | true =>
          obtain ⟨ho, hl⟩ := tickPing_lmt0 w l t [Event.sleep 1] h0
          rcases ho with ho | ⟨e, ho⟩ <;> simp [hq, ho, hl]
        | false =>
          cases hse : t.subsResult with
          | error e => simp [hq, hse, h0]
          | ok s =>
            obtain ⟨ho, hl⟩ :=
              tickPing_lmt0 { w with subscribed_pairs := s } l t
                [Event.sleep 1, Event.updateSubscriptionsCalled] h0
            rcases ho with ho | ⟨e, ho⟩ <;> simp [hq, hse, ho, hl]

/-- C4 (amended): the silence check fires only once at least one message has
been received *since the worker started* (i.e. `_last_message_time` has been
set at all): if `_last_message_time` is still the `0` sentinel and no tick
records a message, the inner loop never breaks on heartbeat timeout,
regardless of the times supplied.  (The claim's "in the current session"
scoping is refuted by `C4_counterexample`: the clock is never reset between
sessions.) -/
theorem C4_no_message_no_silence (w : WorkerState) (l : Rat) (ts : List TickInput)
    (h0 : w.last_message_time = 0) (hm : ∀ t ∈ ts, t.msgUpdate = none) :
    (innerLoop w l ts).2.2.2 ≠ InnerOutcome.silence := by
  induction ts generalizing w l with
  | nil => simp [innerLoop]
  | cons t ts ih =>
    obtain ⟨hne, hl⟩ := tickStep_lmt0 w l t (hm t (by simp)) h0
    rcases hres : tickStep w l t with ⟨w1, l1, evs, oc⟩
    rw [hres] at hne hl
    simp only at hne hl
    cases oc with
    | next =>
      have := ih w1 l1 hl (fun t' ht' => hm t' (by simp [ht']))
      simp [innerLoop, hres, this]
    | silence => exact absurd rfl hne
    | stopped => simp [innerLoop, hres]
    | raised e => simp [innerLoop, hres]
    | cancelled => simp [innerLoop, hres]

def bigSilenceTick : TickInput := quietTick 1000

/-- C4 witness: a zero-traffic session on a fresh worker does not break on
silence even when the heartbeat check runs at time 1000. -/
theorem C4_witness :
    (wRun.last_message_time = 0 ∧ ∀ t ∈ [bigSilenceTick], t.msgUpdate = none)
    ∧ (innerLoop wRun 0 [bigSilenceTick]).2.2.2 ≠ InnerOutcome.silence :=
  ⟨⟨rfl, by decide⟩, C4_no_message_no_silence wRun 0 [bigSilenceTick] rfl (by decide)⟩

def sessionMsgTick : TickInput :=
  { stopRequested := false, cancelAtSleep := false, msgUpdate := some 10, pairsNow := [],
    subsResult := Except.ok [], timePingCheck := 0, pingResult := none,
    timePingStamp := 0, timeSilence := 100 }

def sessionQuietTick : TickInput := quietTick 200

def sessionA : AttemptScript := okAttempt [sessionMsgTick]
def sessionB : AttemptScript := okAttempt [sessionQuietTick]

/-- C4 counterexample: `_last_message_time` is never reset between sessions,
so a *session* with zero inbound traffic can still trigger a heartbeat-timeout
reconnection off the previous session's last message.  Session A receives a
message at time 10 and breaks on silence; session B receives nothing
(`msgUpdate.isNone` on every tick) yet its inner loop also exits with
`InnerOutcome.silence` — refuting the claim's "a session in which no message
has arrived never triggers a heartbeat-timeout reconnection". -/
theorem C4_counterexample :
    (outerStep wRun sessionA).2.2 = OuterControl.continueLoop
    ∧ (outerStep wRun sessionA).1.last_message_time = 10
    ∧ (sessionB.ticks.all fun t => t.msgUpdate.isNone) = true
    ∧ (innerLoop (connectedState (outerStep wRun sessionA).1
          { connectTime := 0, subscribed := [] }) 0 sessionB.ticks).2.2.2 =
        InnerOutcome.silence := by
  refine ⟨by decide, by decide, by decide, by decide⟩

/-! ## C5: ping failures -/

/-- C5 (amended): ping failures are *not* swallowed.  The base-class
`_send_ping` is a no-op that cannot fail; but when an overriding ping raises,
the exception escapes the tick (the heartbeat check is not even reached) and
lands in the outer loop's generic `except Exception` handler, which turns it
into a `RECONNECTING` transition with backoff like any other error. -/
theorem C5_ping_failure_raises (w : WorkerState) (l : Rat) (t : TickInput) (e : String)
    (hr : w.running = true) (hs : t.stopRequested = false) (hc : t.cancelAtSleep = false)
    (hq : setEqB t.pairsNow w.subscribed_pairs = true)
    (hdue : ratSub t.timePingCheck l > w.ping_interval)
    (hp : t.pingResult = some e) :
    (tickStep w l t).2.2.2 = TickOutcome.raised e
    ∧ Event.pingSent ∈ (tickStep w l t).2.2.1 := by
  rw [tickStep_active w l t hs hr hc]
  cases hmu : t.msgUpdate with
  | none =>
    simp only [hq]
    unfold tickPing
    rw [if_pos hdue, hp]
    simp
  | some tm =>
    have hq' : setEqB t.pairsNow
        ({ w with last_message_time := tm } : WorkerState).subscribed_pairs = true := hq
    simp only [hq']
    unfold tickPing
    rw [if_pos hdue, hp]
    simp

def pingFailTick : TickInput :=
  { stopRequested := false, cancelAtSleep := false, msgUpdate := none, pairsNow := [],
    subsResult := Except.ok [], timePingCheck := 25, pingResult := some "boom",
    timePingStamp := 25, timeSilence := 25 }

/-- C5 witness: a due ping that raises `"boom"` aborts the tick with that
exception. -/
theorem C5_witness :
    (wRun.running = true ∧ pingFailTick.stopRequested = false
      ∧ pingFailTick.cancelAtSleep = false
      ∧ setEqB pingFailTick.pairsNow wRun.subscribed_pairs = true
      ∧ ratSub pingFailTick.timePingCheck 0 > wRun.ping_interval
      ∧ pingFailTick.pingResult = some "boom")
    ∧ (tickStep wRun 0 pingFailTick).2.2.2 = TickOutcome.raised "boom"
    ∧ Event.pingSent ∈ (tickStep wRun 0 pingFailTick).2.2.1 :=
  ⟨⟨rfl, rfl, rfl, by decide, by decide, rfl⟩,
    C5_ping_failure_raises wRun 0 pingFailTick "boom" rfl rfl rfl (by decide) (by decide) rfl⟩

/-- C5 counterexample: a session whose only anomaly is a raising ping (no
message ever arrives, so no silence; the pair sets agree, so no
reconciliation error) nevertheless emits a `RECONNECTING` transition —
refuting "a failure of the keep-alive ping operation never causes a
transition to Reconnecting". -/
theorem C5_counterexample :
    Event.pingSent ∈ (maintainConnection wRun [okAttempt [pingFailTick]]).2.1
    ∧ stateCount ConnectionState.reconnecting
        (maintainConnection wRun [okAttempt [pingFailTick]]).2.1 = 1 := by
  refine ⟨by decide, by decide⟩

/-! ## C6: per-tick order and the reconciliation condition -/

/-- C6: while connected, each tick performs, in this order: (a) subscription
reconciliation, (b) a keep-alive ping if one is due, (c) the silence check —
and the `_update_subscriptions` call is issued exactly when the desired pair
set (read as a copy, `t.pairsNow`) differs *as a set* from the subscribed
set; the loop computes nothing beyond that set inequality (the call carries
no arguments).  The trace equation below exhibits all of this: the marker
events appear in phase order, and the reconciliation marker is governed by
the set-equality condition alone. -/
theorem C6_tick_order (w : WorkerState) (l : Rat) (t : TickInput) (s : List String)
    (hr : w.running = true) (hs : t.stopRequested = false) (hc : t.cancelAtSleep = false)
    (hsubs : t.subsResult = Except.ok s) (hp : t.pingResult = none) :
    (tickStep w l t).2.2.1 =
      [Event.sleep 1]
      ++ (if t.pairsNow.toFinset = w.subscribed_pairs.toFinset then []
          else [Event.updateSubscriptionsCalled])
      ++ (if ratSub t.timePingCheck l > w.ping_interval then [Event.pingSent] else [])
      ++ (if (t.msgUpdate.getD w.last_message_time) > 0
            ∧ ratSub t.timeSilence (t.msgUpdate.getD w.last_message_time) > w.connection_timeout
          then
            [Event.stateChanged ConnectionState.reconnecting
               (heartbeatMsg (ratSub t.timeSilence (t.msgUpdate.getD w.last_message_time)))
               w.strategy.retry_count,
             Event.connStatus false
               (heartbeatMsg (ratSub t.timeSilence (t.msgUpdate.getD w.last_message_time)))]
          else []) := by
  rw [tickStep_active w l t hs hr hc]
  simp only [← setEqB_eq_true_iff]
  cases hmu : t.msgUpdate with
  | none =>
    simp only [Option.getD]
    cases hq : setEqB t.pairsNow w.subscribed_pairs with
    | true =>
      simp only [hq, if_true]
      unfold tickPing tickSilence
      by_cases hd : ratSub t.timePingCheck l > w.ping_interval <;>
        by_cases hz : w.last_message_time > 0
            ∧ ratSub t.timeSilence w.last_message_time > w.connection_timeout <;>
        simp [hd, hz, hp, update_connection_state]
    | false =>
      simp only [hq, hsubs, if_false]
      unfold tickPing tickSilence
      by_cases hd : ratSub t.timePingCheck l > w.ping_interval <;>
        by_cases hz : w.last_message_time > 0
            ∧ ratSub t.timeSilence w.last_message_time > w.connection_timeout <;>
        simp [hd, hz, hp, update_connection_state]
  | some tm =>
    simp only [Option.getD]
    cases hq : setEqB t.pairsNow w.subscribed_pairs with
    | true =>
      simp only [hq, if_true]
      unfold tickPing tickSilence
      by_cases hd : ratSub t.timePingCheck l > w.ping_interval <;>
        by_cases hz : (tm : Rat) > 0 ∧ ratSub t.timeSilence tm > w.connection_timeout <;>
        simp [hd, hz, hp, update_connection_state]
    | false =>
      simp only [hq, hsubs, if_false]
      unfold tickPing tickSilence
      by_cases hd : ratSub t.timePingCheck l > w.ping_interval <;>
        by_cases hz : (tm : Rat) > 0 ∧ ratSub t.timeSilence tm > w.connection_timeout <;>
        simp [hd, hz, hp, update_connection_state]

/-! ## Structural lemmas for the inner loop -/

/-- Events the inner tick loop can emit: tick sleeps, reconciliation and ping
markers, and the silence-break `RECONNECTING` pair.  In particular no
`shouldRetryCalled`, no `statsUpdated`, and no `DISCONNECTED`/`FAILED`/
`CONNECTING`/`CONNECTED` transition. -/
def isTickEv : Event → Bool
  | .sleep _ => true
  | .updateSubscriptionsCalled => true
  | .pingSent => true
  | .stateChanged st _ _ => decide (st = ConnectionState.reconnecting)
  | .connStatus _ _ => true
  | _ => false

theorem tickSilence_tickEv (w : WorkerState) (l : Rat) (t : TickInput) (acc : List Event)
    (hacc : ∀ e ∈ acc, isTickEv e = true) :
    ∀ e ∈ (tickSilence w l t acc).2.2.1, isTickEv e = true := by
  unfold tickSilence
  split <;> intro e he
  · simp [update_connection_state] at he
    rcases he with he | he | he
    · exact hacc e he
    · subst he; rfl
    · subst he; rfl
  · exact hacc e he

theorem tickPing_tickEv (w : WorkerState) (l : Rat) (t : TickInput) (acc : List Event)
    (hacc : ∀ e ∈ acc, isTickEv e = true) :
    ∀ e ∈ (tickPing w l t acc).2.2.1, isTickEv e = true := by
  have hacc' : ∀ e ∈ acc ++ [Event.pingSent], isTickEv e = true := by
    intro e he
    rcases List.mem_append.mp he with he | he
    · exact hacc e he
    · simp at he; subst he; rfl
  unfold tickPing
  split
  · split
    · intro e he; exact hacc' e he
    · exact tickSilence_tickEv _ _ _ _ hacc'
  · exact tickSilence_tickEv _ _ _ _ hacc

theorem tickStep_tickEv (w : WorkerState) (l : Rat) (t : TickInput) :
    ∀ e ∈ (tickStep w l t).2.2.1, isTickEv e = true := by
  cases hs : t.stopRequested with
  | true =>
    unfold tickStep; simp [hs]
  | false =>
    cases hr : w.running with
    | false => unfold tickStep; simp [hs, hr]
    | true =>
      cases hc : t.cancelAtSleep with
      | true =>
        unfold tickStep
        simp [hs, hr, hc]
        rfl
      | false =>
        rw [tickStep_active w l t hs hr hc]
        have hone : ∀ e ∈ [Event.sleep 1], isTickEv e = true := by
          intro e he; simp at he; subst he; rfl
        have htwo : ∀ e ∈ [Event.sleep 1, Event.updateSubscriptionsCalled],
            isTickEv e = true := by
          intro e he
          simp at he
          rcases he with he | he <;> (subst he; rfl)
        cases hmu : t.msgUpdate <;>
      (simp only []
       split
       · exact tickPing_tickEv _ _ _ _ hone
       · cases hse : t.subsResult with
         | error e =>
           simp only [hse]
           intro e' he'
           simp at he'
           rcases he' with he' | he' <;> (subst he'; rfl)
         | ok s => simp only [hse]; exact tickPing_tickEv _ _ _ _ htwo)

theorem innerLoop_tickEv (w : WorkerState) (l : Rat) (ts : List TickInput) :
    ∀ e ∈ (innerLoop w l ts).2.2.1, isTickEv e = true := by
  induction ts generalizing w l with
  | nil => simp [innerLoop]
  | cons t ts ih =>
    have htick := tickStep_tickEv w l t
    rcases hres : tickStep w l t with ⟨w1, l1, evs, oc⟩
    rw [hres] at htick
    simp only at htick
    cases oc with
    | next =>
      intro e he
      rw [show innerLoop w l (t :: ts)
            = ((innerLoop w1 l1 ts).1, (innerLoop w1 l1 ts).2.1,
                evs ++ (innerLoop w1 l1 ts).2.2.1, (innerLoop w1 l1 ts).2.2.2) by
          simp [innerLoop, hres]] at he
      simp only at he
      rcases List.mem_append.mp he with he | he
      · exact htick e he
      · exact ih w1 l1 e he
    | stopped => intro e he; simp [innerLoop, hres] at he; exact htick e he
    | silence => intro e he; simp [innerLoop, hres] at he; exact htick e he
    | raised m => intro e he; simp [innerLoop, hres] at he; exact htick e he
    | cancelled => intro e he; simp [innerLoop, hres] at he; exact htick e he

theorem tickSilence_preserve (w : WorkerState) (l : Rat) (t : TickInput) (acc : List Event) :
    (tickSilence w l t acc).1.strategy = w.strategy
    ∧ (tickSilence w l t acc).1.total_reconnect_count = w.total_reconnect_count
    ∧ (tickSilence w l t acc).1.running = w.running := by
  unfold tickSilence
  split <;> simp [update_connection_state]

theorem tickPing_preserve (w : WorkerState) (l : Rat) (t : TickInput) (acc : List Event) :
    (tickPing w l t acc).1.strategy = w.strategy
    ∧ (tickPing w l t acc).1.total_reconnect_count = w.total_reconnect_count
    ∧ (tickPing w l t acc).1.running = w.running := by
  unfold tickPing
  split
  · split
    · simp
    · exact tickSilence_preserve _ _ _ _
  · exact tickSilence_preserve _ _ _ _

theorem tickStep_preserve (w : WorkerState) (l : Rat) (t : TickInput) :
    (tickStep w l t).1.strategy = w.strategy
    ∧ (tickStep w l t).1.total_reconnect_count = w.total_reconnect_count := by
  cases hs : t.stopRequested with
  | true => unfold tickStep; simp [hs]
  | false =>
    cases hr : w.running with
    | false => unfold tickStep; simp [hs, hr]
    | true =>
      cases hc : t.cancelAtSleep with
      | true => unfold tickStep; simp [hs, hr, hc]
      | false =>
        rw [tickStep_active w l t hs hr hc]
        cases hmu : t.msgUpdate <;>
      (simp only []
       split
       · exact ⟨(tickPing_preserve _ _ _ _).1, (tickPing_preserve _ _ _ _).2.1⟩
       · cases hse : t.subsResult with
         | error e => simp [hse]
         | ok s =>
           simp only [hse]
           exact ⟨(tickPing_preserve _ _ _ _).1, (tickPing_preserve _ _ _ _).2.1⟩)

theorem innerLoop_preserve (w : WorkerState) (l : Rat) (ts : List TickInput) :
    (innerLoop w l ts).1.strategy = w.strategy
    ∧ (innerLoop w l ts).1.total_reconnect_count = w.total_reconnect_count := by
  induction ts generalizing w l with
  | nil => simp [innerLoop]
  | cons t ts ih =>
    have htick := tickStep_preserve w l t
    rcases hres : tickStep w l t with ⟨w1, l1, evs, oc⟩
    rw [hres] at htick
    simp only at htick
    cases oc with
    | next =>
      have hrest := ih w1 l1
      constructor
      · rw [show (innerLoop w l (t :: ts)).1 = (innerLoop w1 l1 ts).1 by simp [innerLoop, hres]]
        rw [hrest.1, htick.1]
      · rw [show (innerLoop w l (t :: ts)).1 = (innerLoop w1 l1 ts).1 by simp [innerLoop, hres]]
        rw [hrest.2, htick.2]
    | stopped => simp [innerLoop, hres, htick.1, htick.2]
    | silence => simp [innerLoop, hres, htick.1, htick.2]
    | raised m => simp [innerLoop, hres, htick.1, htick.2]
    | cancelled => simp [innerLoop, hres, htick.1, htick.2]

theorem tickSilence_silence_shape (w : WorkerState) (l : Rat) (t : TickInput) (acc : List Event)
    (h : (tickSilence w l t acc).2.2.2 = TickOutcome.silence) :
    ∃ m, (tickSilence w l t acc).2.2.1 =
      acc ++ [Event.stateChanged ConnectionState.reconnecting m w.strategy.retry_count,
              Event.connStatus false m] := by
  by_cases hcond : w.last_message_time > 0
      ∧ ratSub t.timeSilence w.last_message_time > w.connection_timeout
  · refine ⟨heartbeatMsg (ratSub t.timeSilence w.last_message_time), ?_⟩
    unfold tickSilence
    rw [if_pos hcond]
    simp [update_connection_state]
  · unfold tickSilence at h
    rw [if_neg hcond] at h
    simp at h

theorem tickPing_silence_shape (w : WorkerState) (l : Rat) (t : TickInput) (acc : List Event)
    (h : (tickPing w l t acc).2.2.2 = TickOutcome.silence) :
    ∃ pre m, (tickPing w l t acc).2.2.1 =
      pre ++ [Event.stateChanged ConnectionState.reconnecting m w.strategy.retry_count,
              Event.connStatus false m] := by
  by_cases hd : ratSub t.timePingCheck l > w.ping_interval
  · unfold tickPing at h ⊢
    rw [if_pos hd] at h ⊢
    cases hp : t.pingResult with
    | some e => rw [hp] at h; simp at h
    | none =>
      rw [hp] at h
      obtain ⟨m, hm⟩ := tickSilence_silence_shape _ _ _ _ h
      exact ⟨acc ++ [Event.pingSent], m, hm⟩
  · unfold tickPing at h ⊢
    rw [if_neg hd] at h ⊢
    obtain ⟨m, hm⟩ := tickSilence_silence_shape _ _ _ _ h
    exact ⟨acc, m, hm⟩

theorem tickStep_silence_shape (w : WorkerState) (l : Rat) (t : TickInput)
    (h : (tickStep w l t).2.2.2 = TickOutcome.silence) :
    ∃ pre m, (tickStep w l t).2.2.1 =
      pre ++ [Event.stateChanged ConnectionState.reconnecting m w.strategy.retry_count,
              Event.connStatus false m] := by
  cases hs : t.stopRequested with
  | true => unfold tickStep at h; simp [hs] at h
  | false =>
    cases hr : w.running with
    | false => unfold tickStep at h; simp [hs, hr] at h
    | true =>
      cases hc : t.cancelAtSleep with
      | true => unfold tickStep at h; simp [hs, hr, hc] at h
      | false =>
        rw [tickStep_active w l t hs hr hc] at h ⊢
        cases hmu : t.msgUpdate with
        | none =>
          rw [hmu] at h
          simp only [] at h ⊢
          cases hq : setEqB t.pairsNow w.subscribed_pairs with
          | true =>
            rw [hq] at h
            simp only [if_true] at h ⊢
            exact tickPing_silence_shape _ _ _ _ h
          | false =>
            rw [hq] at h
            simp only [Bool.false_eq_true, if_false] at h ⊢
            cases hse : t.subsResult with
            | error e => rw [hse] at h; simp at h
            | ok s =>
              rw [hse] at h
              exact tickPing_silence_shape _ _ _ _ h
        | some tm =>
          rw [hmu] at h
          simp only [] at h ⊢
          cases hq : setEqB t.pairsNow
              ({ w with last_message_time := tm } : WorkerState).subscribed_pairs with
          | true =>
            rw [hq] at h
            simp only [if_true] at h ⊢
            exact tickPing_silence_shape _ _ _ _ h
          | false =>
            rw [hq] at h
            simp only [Bool.false_eq_true, if_false] at h ⊢
            cases hse : t.subsResult with
            | error e => rw [hse] at h; simp at h
            | ok s =>
              rw [hse] at h
              exact tickPing_silence_shape _ _ _ _ h

theorem innerLoop_silence_shape (w : WorkerState) (l : Rat) (ts : List TickInput)
    (h : (innerLoop w l ts).2.2.2 = InnerOutcome.silence) :
    ∃ pre m, (innerLoop w l ts).2.2.1 =
      pre ++ [Event.stateChanged ConnectionState.reconnecting m w.strategy.retry_count,
              Event.connStatus false m] := by
  induction ts generalizing w l with
  | nil => simp [innerLoop] at h
  | cons t ts ih =>
    have hpres := tickStep_preserve w l t
    rcases hres : tickStep w l t with ⟨w1, l1, evs, oc⟩
    rw [hres] at hpres
    simp only at hpres
    cases oc with
    | next =>
      rw [show innerLoop w l (t :: ts)
            = ((innerLoop w1 l1 ts).1, (innerLoop w1 l1 ts).2.1,
                evs ++ (innerLoop w1 l1 ts).2.2.1, (innerLoop w1 l1 ts).2.2.2) by
          simp [innerLoop, hres]] at h ⊢
      simp only at h ⊢
      obtain ⟨pre, m, hm⟩ := ih w1 l1 h
      refine ⟨evs ++ pre, m, ?_⟩
      rw [hm, hpres.1]
      simp
    | silence =>
      have hsh := tickStep_silence_shape w l t (by rw [hres])
      rw [hres] at hsh
      simp only at hsh
      obtain ⟨pre, m, hm⟩ := hsh
      exact ⟨pre, m, by simp [innerLoop, hres, hm]⟩
    | stopped => simp [innerLoop, hres] at h
    | raised m => simp [innerLoop, hres] at h
    | cancelled => simp [innerLoop, hres] at h

theorem isTickEv_not_shouldRetry (e : Event) (h : isTickEv e = true) :
    isShouldRetryEv e = false := by
  cases e <;> simp [isTickEv, isShouldRetryEv] at *

/-- C10: a heartbeat-timeout (zombie) reconnection bypasses the backoff
policy: when the inner loop of a successfully connected attempt breaks on
silence, the outer loop just continues (the next connect begins immediately:
the attempt's trace ends at the silence `RECONNECTING` pair, with no backoff
sleep after it), `should_retry` is never consulted during the attempt, the
backoff `retry_count` is still `0` (the reset value), and the lifetime
`_total_reconnect_count` is unchanged. -/
theorem C10_zombie_bypasses_backoff (w : WorkerState) (a : AttemptScript) (c : ConnectOk)
    (hr : w.running = true) (hs : a.stopBeforeAttempt = false) (hcc : a.cancelAtConnect = false)
    (hcr : a.connectResult = Except.ok c)
    (hsil : (innerLoop (connectedState w c) c.connectTime a.ticks).2.2.2 =
      InnerOutcome.silence) :
    (outerStep w a).2.2 = OuterControl.continueLoop
    ∧ (outerStep w a).1.strategy.retry_count = 0
    ∧ (outerStep w a).1.total_reconnect_count = w.total_reconnect_count
    ∧ ((outerStep w a).2.1.all fun e => !(isShouldRetryEv e)) = true
    ∧ ∃ pre m, (outerStep w a).2.1 =
        pre ++ [Event.stateChanged ConnectionState.reconnecting m 0,
                Event.connStatus false m] := by
  have hpres := innerLoop_preserve (connectedState w c) c.connectTime a.ticks
  have hticks := innerLoop_tickEv (connectedState w c) c.connectTime a.ticks
  have hshape := innerLoop_silence_shape (connectedState w c) c.connectTime a.ticks hsil
  rcases hres : innerLoop (connectedState w c) c.connectTime a.ticks with ⟨w4, l4, evsI, oc⟩
  rw [hres] at hsil hpres hticks hshape
  simp only at hsil hpres hticks hshape
  subst hsil
  simp only [connectedState, hr] at hres
  unfold outerStep connectedPhase
  simp only [hs, hcc, hcr, hr, Bool.false_eq_true, if_false, Bool.true_eq_false,
    update_connection_state]
  rw [hres]
  simp only []
  refine ⟨by trivial, ?_, ?_, ?_, ?_⟩
  · rw [hpres.1]
    simp [connectedState, ReconnectStrategy.reset]
  · rw [hpres.2]
    simp [connectedState]
  · rw [List.all_eq_true]
    intro e he
    simp only [List.append_assoc, List.cons_append, List.nil_append, List.mem_append,
      List.mem_cons, List.not_mem_nil, or_false] at he
    rcases he with he | he | he | he | he | he
    · subst he; rfl
    · subst he; rfl
    · subst he; rfl
    · subst he; rfl
    · subst he; rfl
    · rw [isTickEv_not_shouldRetry e (hticks e he)]
      rfl
  · obtain ⟨pre, m, hm⟩ := hshape
    have hrc : (connectedState w c).strategy.retry_count = 0 := by
      simp [connectedState, ReconnectStrategy.reset]
    rw [hm, hrc]
    simp only [← List.append_assoc]
    exact ⟨_, m, rfl⟩

def zombieTick : TickInput :=
  { stopRequested := false, cancelAtSleep := false, msgUpdate := some 1, pairsNow := [],
    subsResult := Except.ok [], timePingCheck := 0, pingResult := none,
    timePingStamp := 0, timeSilence := 100 }

def cZero : ConnectOk := { connectTime := 0, subscribed := [] }

/-- C10 witness: instance of `C10_zombie_bypasses_backoff` on a session that
receives one message at time 1 and then breaks on silence at time 100. -/
theorem C10_witness :
    ((innerLoop (connectedState wRun cZero) cZero.connectTime
        (okAttempt [zombieTick]).ticks).2.2.2 = InnerOutcome.silence)
    ∧ ((outerStep wRun (okAttempt [zombieTick])).2.2 = OuterControl.continueLoop
      ∧ (outerStep wRun (okAttempt [zombieTick])).1.strategy.retry_count = 0
      ∧ (outerStep wRun (okAttempt [zombieTick])).1.total_reconnect_count =
          wRun.total_reconnect_count
      ∧ ((outerStep wRun (okAttempt [zombieTick])).2.1.all fun e =>
          !(isShouldRetryEv e)) = true
      ∧ ∃ pre m, (outerStep wRun (okAttempt [zombieTick])).2.1 =
          pre ++ [Event.stateChanged ConnectionState.reconnecting m 0,
                  Event.connStatus false m]) :=
  ⟨by decide,
    C10_zombie_bypasses_backoff wRun (okAttempt [zombieTick]) cZero rfl rfl rfl rfl (by decide)⟩

/-! ## Outer-loop and run-level lemmas -/

theorem isTickEv_not_state (e : Event) (h : isTickEv e = true) (s : ConnectionState)
    (hs : s ≠ ConnectionState.reconnecting) : isStateEv s e = false := by
  cases e with
  | stateChanged st m rc =>
    simp [isTickEv] at h
    subst h
    simp [isStateEv]
    exact fun hh => hs hh.symm
  | connStatus b m => rfl
  | statsUpdated st => rfl
  | sleep d => rfl
  | updateSubscriptionsCalled => rfl
  | pingSent => rfl
  | shouldRetryCalled b => rfl

theorem isStateEv_update_stats (s : ConnectionState) (w : WorkerState) (now : Rat) :
    isStateEv s (update_stats w now) = false := rfl

theorem stateCount_append (s : ConnectionState) (l1 l2 : List Event) :
    stateCount s (l1 ++ l2) = stateCount s l1 + stateCount s l2 := by
  simp [stateCount, List.filter_append]

theorem stateCount_eq_zero (s : ConnectionState) (l : List Event)
    (h : ∀ e ∈ l, isStateEv s e = false) : stateCount s l = 0 := by
  simp only [stateCount, List.length_eq_zero]
  rw [List.filter_eq_nil_iff]
  intro e he
  simp [h e he]

/-- Events are benign when they are neither a `FAILED` nor a `DISCONNECTED`
transition. -/
def benignB (e : Event) : Bool :=
  !(isStateEv ConnectionState.failed e) && !(isStateEv ConnectionState.disconnected e)

theorem isTickEv_benign (e : Event) (h : isTickEv e = true) : benignB e = true := by
  unfold benignB
  rw [isTickEv_not_state e h ConnectionState.failed (by simp),
    isTickEv_not_state e h ConnectionState.disconnected (by simp)]
  rfl

/-- Complete description of the `except Exception` handler's trace and
control flow. -/
theorem failureHandler_shape (w : WorkerState) (e0 : String) (cb : Bool) :
    (w.strategy.should_retry = true
      ∧ (failureHandler w e0 cb).2.1 =
          [Event.shouldRetryCalled true,
           Event.stateChanged ConnectionState.reconnecting (connFailedMsg e0)
             w.strategy.retry_count,
           Event.connStatus false (connFailedMsg e0),
           Event.sleep w.strategy.delay_at]
      ∧ ((failureHandler w e0 cb).2.2 = OuterControl.continueLoop
         ∨ (failureHandler w e0 cb).2.2 = OuterControl.exit MaintainOutcome.cancelled))
    ∨ (w.strategy.should_retry = false
      ∧ (failureHandler w e0 cb).2.1 =
          [Event.shouldRetryCalled false,
           Event.stateChanged ConnectionState.failed (maxRetriesMsg e0) 0,
           Event.connStatus false (maxRetriesMsg e0)]
      ∧ (failureHandler w e0 cb).2.2 = OuterControl.exit (MaintainOutcome.raised e0)) := by
  unfold failureHandler
  simp only [update_connection_state, ReconnectStrategy.next_delay]
  cases hsr : w.strategy.should_retry with
  | true =>
    left
    refine ⟨rfl, ?_, ?_⟩
    · cases hcb : cb <;> simp [ReconnectStrategy.delay_at]
    · cases hcb : cb <;> simp
  | false =>
    right
    refine ⟨rfl, by simp, by simp⟩

/-- Complete failed/benign description of the connected phase's trace. -/
theorem connectedPhase_shape (w2 : WorkerState) (ct : Rat) (ticks : List TickInput) (cb : Bool) :
    (∃ m, (connectedPhase w2 ct ticks cb).2.2 = OuterControl.exit (MaintainOutcome.raised m)
      ∧ ∃ pre, (connectedPhase w2 ct ticks cb).2.1 =
          pre ++ [Event.shouldRetryCalled false,
            Event.stateChanged ConnectionState.failed (maxRetriesMsg m) 0,
            Event.connStatus false (maxRetriesMsg m)]
        ∧ ∀ e ∈ pre, benignB e = true)
    ∨ ((∀ m, (connectedPhase w2 ct ticks cb).2.2 ≠ OuterControl.exit (MaintainOutcome.raised m))
      ∧ ∀ e ∈ (connectedPhase w2 ct ticks cb).2.1, benignB e = true) := by
  have hbh : ∀ e ∈ (update_connection_state w2 ConnectionState.connected "Connected").2,
      benignB e = true := by
    intro e he
    simp [update_connection_state] at he
    rcases he with he | he <;> (subst he; rfl)
  have hticks := innerLoop_tickEv
    (update_connection_state w2 ConnectionState.connected "Connected").1 ct ticks
  unfold connectedPhase
  simp only []
  split
  next w4 l4 evsI heq =>
    rw [heq] at hticks
    simp only at hticks
    right
    refine ⟨fun m => by simp, ?_⟩
    intro e he
    have he' : e ∈ (update_connection_state w2 ConnectionState.connected "Connected").2
        ∨ e = update_stats (update_connection_state w2 ConnectionState.connected "Connected").1 ct
        ∨ e ∈ evsI := by simpa using he
    rcases he' with h1 | h1 | h1
    · exact hbh e h1
    · subst h1; rfl
    · exact isTickEv_benign e (hticks e h1)
  next w4 l4 evsI heq =>
    rw [heq] at hticks
    simp only at hticks
    right
    refine ⟨fun m => by simp, ?_⟩
    intro e he
    have he' : e ∈ (update_connection_state w2 ConnectionState.connected "Connected").2
        ∨ e = update_stats (update_connection_state w2 ConnectionState.connected "Connected").1 ct
        ∨ e ∈ evsI := by simpa using he
    rcases he' with h1 | h1 | h1
    · exact hbh e h1
    · subst h1; rfl
    · exact isTickEv_benign e (hticks e h1)
  next w4 l4 evsI heq =>
    rw [heq] at hticks
    simp only at hticks
    right
    refine ⟨fun m => by simp, ?_⟩
    intro e he
    have he' : e ∈ (update_connection_state w2 ConnectionState.connected "Connected").2
        ∨ e = update_stats (update_connection_state w2 ConnectionState.connected "Connected").1 ct
        ∨ e ∈ evsI := by simpa using he
    rcases he' with h1 | h1 | h1
    · exact hbh e h1
    · subst h1; rfl
    · exact isTickEv_benign e (hticks e h1)
  next w4 l4 evsI heq =>
    rw [heq] at hticks
    simp only at hticks
    right
    refine ⟨fun m => by simp, ?_⟩
    intro e he
    have he' : e ∈ (update_connection_state w2 ConnectionState.connected "Connected").2
        ∨ e = update_stats (update_connection_state w2 ConnectionState.connected "Connected").1 ct
        ∨ e ∈ evsI := by simpa using he
    rcases he' with h1 | h1 | h1
    · exact hbh e h1
    · subst h1; rfl
    · exact isTickEv_benign e (hticks e h1)
  next w4 l4 evsI e0 heq =>
    rw [heq] at hticks
    simp only at hticks
    rcases failureHandler_shape w4 e0 cb with ⟨hsr, hevs, hctl⟩ | ⟨hsr, hevs, hctl⟩
    · right
      constructor
      · intro m
        rcases hctl with hctl | hctl <;> simp [hctl]
      · intro e he
        have he' : e ∈ (update_connection_state w2 ConnectionState.connected "Connected").2
            ∨ e = update_stats (update_connection_state w2 ConnectionState.connected "Connected").1 ct
            ∨ e ∈ evsI
            ∨ e = Event.shouldRetryCalled true
            ∨ e = Event.stateChanged ConnectionState.reconnecting (connFailedMsg e0)
                w4.strategy.retry_count
            ∨ e = Event.connStatus false (connFailedMsg e0)
            ∨ e = Event.sleep w4.strategy.delay_at := by
          simpa [hevs] using he
        rcases he' with h1 | h1 | h1 | h1 | h1 | h1 | h1
        · exact hbh e h1
        · subst h1; rfl
        · exact isTickEv_benign e (hticks e h1)
        · subst h1; rfl
        · subst h1; rfl
        · subst h1; rfl
        · subst h1; rfl
    · left
      refine ⟨e0, by simp [hctl], ?_⟩
      refine ⟨(update_connection_state w2 ConnectionState.connected "Connected").2
        ++ [update_stats (update_connection_state w2 ConnectionState.connected "Connected").1 ct]
        ++ evsI, ?_, ?_⟩
      · simp [hevs]
      · intro e he
        have he' : e ∈ (update_connection_state w2 ConnectionState.connected "Connected").2
            ∨ e = update_stats (update_connection_state w2 ConnectionState.connected "Connected").1 ct
            ∨ e ∈ evsI := by simpa using he
        rcases he' with h1 | h1 | h1
        · exact hbh e h1
        · subst h1; rfl
        · exact isTickEv_benign e (hticks e h1)

/-- Complete failed/benign description of one outer-loop iteration's trace. -/
theorem outerStep_shape (w : WorkerState) (a : AttemptScript) :
    (∃ m, (outerStep w a).2.2 = OuterControl.exit (MaintainOutcome.raised m)
      ∧ ∃ pre, (outerStep w a).2.1 = pre ++ [Event.shouldRetryCalled false,
          Event.stateChanged ConnectionState.failed (maxRetriesMsg m) 0,
          Event.connStatus false (maxRetriesMsg m)]
        ∧ ∀ e ∈ pre, benignB e = true)
    ∨ ((∀ m, (outerStep w a).2.2 ≠ OuterControl.exit (MaintainOutcome.raised m))
      ∧ ∀ e ∈ (outerStep w a).2.1, benignB e = true) := by
  cases hsb : a.stopBeforeAttempt with
  | true =>
    right
    unfold outerStep
    simp [hsb]
  | false =>
    cases hw : w.running with
    | false =>
      right
      unfold outerStep
      simp [hsb, hw]
    | true =>
      cases hcc : a.cancelAtConnect with
      | true =>
        right
        unfold outerStep
        simp only [hsb, Bool.false_eq_true, if_false]
        rw [if_neg (show ¬(w.running = false) by simp [hw])]
        simp only [hcc, if_true, update_connection_state]
        refine ⟨fun m => by simp, ?_⟩
        intro e he
        simp at he
        rcases he with he | he <;> (subst he; rfl)
      | false =>
        cases hcr : a.connectResult with
        | error e0 =>
          unfold outerStep
          simp only [hsb, Bool.false_eq_true, if_false]
          rw [if_neg (show ¬(w.running = false) by simp [hw])]
          simp only [hcc, hcr, if_false, update_connection_state]
          rcases failureHandler_shape
              { w with connection_state := ConnectionState.connecting } e0 a.cancelAtBackoff
            with ⟨hsr, hevs, hctl⟩ | ⟨hsr, hevs, hctl⟩
          · right
            constructor
            · intro m
              rcases hctl with hctl | hctl <;> simp [hctl]
            · intro e he
              rw [hevs] at he
              simp only [List.cons_append, List.nil_append] at he
              fin_cases he <;> rfl
          · left
            refine ⟨e0, by simp [hctl], ?_⟩
            refine ⟨[Event.stateChanged ConnectionState.connecting
                (connectingMsg (w.strategy.retry_count + 1)) 0,
              Event.connStatus true (connectingMsg (w.strategy.retry_count + 1))], ?_, ?_⟩
            · simp [hevs]
            · intro e he
              simp at he
              rcases he with he | he <;> (subst he; rfl)
        | ok c =>
          unfold outerStep
          simp only [hsb, Bool.false_eq_true, if_false]
          rw [if_neg (show ¬(w.running = false) by simp [hw])]
          simp only [hcc, hcr, if_false, update_connection_state]
          rcases connectedPhase_shape
              { w with connection_state := ConnectionState.connecting, strategy := w.strategy.reset, subscribed_pairs := c.subscribed }
              c.connectTime a.ticks a.cancelAtBackoff
            with ⟨m, hm, pre, hevs, hpre⟩ | ⟨hnm, hb⟩
          · left
            refine ⟨m, by simp [hm], ?_⟩
            refine ⟨[Event.stateChanged ConnectionState.connecting
                (connectingMsg (w.strategy.retry_count + 1)) 0,
              Event.connStatus true (connectingMsg (w.strategy.retry_count + 1))] ++ pre, ?_, ?_⟩
            · rw [hevs]
              simp
            · intro e he
              simp at he
              rcases he with he | he | he
              · subst he; rfl
              · subst he; rfl
              · exact hpre e he
          · right
            constructor
            · intro m
              simpa using hnm m
            · intro e he
              simp at he
              rcases he with he | he | he
              · subst he; rfl
              · subst he; rfl
              · exact hb e he

/-- Complete failed/benign description of `_maintain_connection`'s trace:
either it ends by re-raising after `Max retries exceeded` (one `FAILED` pair
at the very end of the trace, nothing `FAILED`/`DISCONNECTED` before it), or
it emits no `FAILED` and no `DISCONNECTED` transition at all. -/
theorem maintain_shape (w : WorkerState) (sc : List AttemptScript) :
    (∃ m, (maintainConnection w sc).2.2 = MaintainOutcome.raised m
      ∧ ∃ pre, (maintainConnection w sc).2.1 = pre ++ [Event.shouldRetryCalled false,
          Event.stateChanged ConnectionState.failed (maxRetriesMsg m) 0,
          Event.connStatus false (maxRetriesMsg m)]
        ∧ ∀ e ∈ pre, benignB e = true)
    ∨ ((∀ m, (maintainConnection w sc).2.2 ≠ MaintainOutcome.raised m)
      ∧ ∀ e ∈ (maintainConnection w sc).2.1, benignB e = true) := by
  induction sc generalizing w with
  | nil =>
    right
    simp [maintainConnection]
  | cons a rest ih =>
    have hshape := outerStep_shape w a
    rcases houter : outerStep w a with ⟨w1, evs, ctl⟩
    rw [houter] at hshape
    simp only at hshape
    cases ctl with
    | continueLoop =>
      have hbe : ∀ e ∈ evs, benignB e = true := by
        rcases hshape with ⟨m, hm, -⟩ | ⟨-, hb⟩
        · simp at hm
        · exact hb
      rcases ih w1 with ⟨m, hm, pre, hevs, hpre⟩ | ⟨hnm, hb⟩
      · left
        refine ⟨m, by simp [maintainConnection, houter, hm], evs ++ pre, ?_, ?_⟩
        · simp [maintainConnection, houter, hevs]
        · intro e he
          rcases List.mem_append.mp he with h1 | h1
          · exact hbe e h1
          · exact hpre e h1
      · right
        constructor
        · intro m
          simpa [maintainConnection, houter] using hnm m
        · intro e he
          simp only [maintainConnection, houter] at he
          simp at he
          rcases he with h1 | h1
          · exact hbe e h1
          · exact hb e h1
    | exit o =>
      rcases hshape with ⟨m, hm, pre, hevs, hpre⟩ | ⟨hnm, hb⟩
      · left
        have ho : o = MaintainOutcome.raised m := by simpa using hm
        refine ⟨m, by simp [maintainConnection, houter, ho], pre, ?_, hpre⟩
        simp [maintainConnection, houter, hevs]
      · right
        constructor
        · intro m hcon
          simp only [maintainConnection, houter] at hcon
          exact hnm m (by rw [hcon])
        · intro e he
          simp only [maintainConnection, houter] at he
          exact hb e he

theorem benignB_failed (e : Event) (h : benignB e = true) :
    isStateEv ConnectionState.failed e = false := by
  simp [benignB, Bool.and_eq_true, Bool.not_eq_true'] at h
  exact h.1

theorem benignB_disc (e : Event) (h : benignB e = true) :
    isStateEv ConnectionState.disconnected e = false := by
  simp [benignB, Bool.and_eq_true, Bool.not_eq_true'] at h
  exact h.2

theorem lastStateChanged_pair (l : List Event) (st : ConnectionState) (m : String)
    (rc : Nat) (b : Bool) :
    lastStateChanged (l ++ [Event.stateChanged st m rc, Event.connStatus b m]) = some st := by
  unfold lastStateChanged
  rw [List.filterMap_append]
  simp [stateOf]

theorem dropWhile_cons_true {α : Type} (p : α → Bool) (a : α) (l : List α) (h : p a = true) :
    List.dropWhile p (a :: l) = List.dropWhile p l := by
  simp [List.dropWhile_cons, h]

theorem dropWhile_cons_false {α : Type} (p : α → Bool) (a : α) (l : List α) (h : p a = false) :
    List.dropWhile p (a :: l) = a :: l := by
  simp [List.dropWhile_cons, h]

theorem dropWhile_append_of_forall {α : Type} (p : α → Bool) (l1 l2 : List α)
    (h : ∀ x ∈ l1, p x = true) : List.dropWhile p (l1 ++ l2) = List.dropWhile p l2 := by
  induction l1 with
  | nil => simp
  | cons a l ih =>
    rw [List.cons_append, dropWhile_cons_true p a (l ++ l2) (h a (by simp))]
    exact ih fun x hx => h x (by simp [hx])

/-- C1 (amended): whenever the scripted run completes, the very last
`connection_state_changed` notification is `DISCONNECTED`, and the number of
`DISCONNECTED` notifications in the whole run is exactly one — except on the
cancellation path (`stop()` observed as `asyncio.CancelledError`), where both
the `except asyncio.CancelledError` handler (line 109) and the `finally`
block (line 128) emit one, for a total of exactly two. -/
theorem C1_final_disconnected (w : WorkerState) (sc : List AttemptScript)
    (h : (runWorker w sc).2.2 = true) :
    lastStateChanged (runWorker w sc).2.1 = some ConnectionState.disconnected
    ∧ stateCount ConnectionState.disconnected (runWorker w sc).2.1 =
      (if (maintainConnection (runStart w).1 sc).2.2 = MaintainOutcome.cancelled
       then 2 else 1) := by
  have hsh := maintain_shape (runStart w).1 sc
  rcases hm : maintainConnection (runStart w).1 sc with ⟨w1, evs, oc⟩
  rw [hm] at hsh
  simp only at hsh
  have hbe : ∀ e ∈ evs, isStateEv ConnectionState.disconnected e = false := by
    rcases hsh with ⟨m, -, pre, hevs, hpre⟩ | ⟨-, hb⟩
    · intro e he
      rw [hevs] at he
      rcases List.mem_append.mp he with h1 | h1
      · exact benignB_disc e (hpre e h1)
      · simp at h1
        rcases h1 with h1 | h1 | h1 <;> (subst h1; rfl)
    · exact fun e he => benignB_disc e (hb e he)
  have hstart : stateCount ConnectionState.disconnected (runStart w).2 = 0 := by
    simp [runStart, update_connection_state, stateCount, isStateEv]
  unfold runWorker at h ⊢
  simp only [] at h ⊢
  rw [hm] at h ⊢
  cases oc with
  | finished =>
    simp only [update_connection_state]
    constructor
    · exact lastStateChanged_pair _ _ _ _ _
    · rw [stateCount_append, stateCount_append, hstart, stateCount_eq_zero _ _ hbe]
      simp [stateCount, isStateEv]
  | cancelled =>
    simp only [update_connection_state]
    constructor
    · exact lastStateChanged_pair _ _ _ _ _
    · rw [stateCount_append, stateCount_append, stateCount_append, hstart,
        stateCount_eq_zero _ _ hbe]
      simp [stateCount, isStateEv]
  | raised m =>
    simp only [update_connection_state]
    constructor
    · exact lastStateChanged_pair _ _ _ _ _
    · rw [stateCount_append, stateCount_append, stateCount_append, hstart,
        stateCount_eq_zero _ _ hbe]
      simp [stateCount, isStateEv]
  | outOfFuel =>
    simp at h

/-- C1 witness: a run stopped via the `_running` flag: one `DISCONNECTED`,
and it is the final state notification. -/
theorem C1_witness :
    ((runWorker (initWorker []) [stopAttempt]).2.2 = true)
    ∧ (lastStateChanged (runWorker (initWorker []) [stopAttempt]).2.1 =
        some ConnectionState.disconnected
      ∧ stateCount ConnectionState.disconnected
          (runWorker (initWorker []) [stopAttempt]).2.1 =
        (if (maintainConnection (runStart (initWorker [])).1 [stopAttempt]).2.2 =
            MaintainOutcome.cancelled then 2 else 1)) :=
  ⟨by decide, C1_final_disconnected (initWorker []) [stopAttempt] (by decide)⟩

def cancelAttempt : AttemptScript :=
  { stopBeforeAttempt := false, cancelAtConnect := true,
    connectResult := Except.error "x", ticks := [], cancelAtBackoff := false }

/-- C1 counterexample: on the cancellation path (`stop()` cancelling the main
task), the run emits TWO `DISCONNECTED` notifications — one from the
`except asyncio.CancelledError` handler and one from the `finally` block —
refuting "exactly one terminal Disconnected state notification". -/
theorem C1_counterexample :
    (runWorker (initWorker []) [cancelAttempt]).2.2 = true
    ∧ stateCount ConnectionState.disconnected
        (runWorker (initWorker []) [cancelAttempt]).2.1 = 2 := by
  refine ⟨by decide, by decide⟩

/-- C2 (amended): when the retry budget is exhausted, the manager emits
exactly TWO `FAILED` transitions — `Max retries exceeded` from
`_maintain_connection` (line 193) and then `Fatal error` from `run`'s generic
exception handler (line 113), because the loop re-raises — and performs no
further connection attempt: no `CONNECTING` notification occurs at or after
the first `FAILED`. -/
theorem C2_exhaustion_two_failed (w : WorkerState) (sc : List AttemptScript) (m : String)
    (h : (maintainConnection (runStart w).1 sc).2.2 = MaintainOutcome.raised m) :
    stateCount ConnectionState.failed (runWorker w sc).2.1 = 2
    ∧ connectingAfterFailed (runWorker w sc).2.1 = false := by
  have hsh := maintain_shape (runStart w).1 sc
  rcases hm : maintainConnection (runStart w).1 sc with ⟨w1, evs, oc⟩
  rw [hm] at hsh h
  simp only at hsh h
  subst h
  rcases hsh with ⟨m', hm', pre, hevs, hpre⟩ | ⟨hnm, -⟩
  swap
  · exact absurd rfl (hnm m)
  have hmm : m' = m := by
    have := hm'.symm
    simpa using this
  subst hmm
  have hstart : stateCount ConnectionState.failed (runStart w).2 = 0 := by
    simp [runStart, update_connection_state, stateCount, isStateEv]
  unfold runWorker
  simp only []
  rw [hm]
  simp only [update_connection_state]
  constructor
  · rw [stateCount_append, stateCount_append, stateCount_append, hstart, hevs,
      stateCount_append, stateCount_eq_zero _ _ (fun e he => benignB_failed e (hpre e he))]
    simp [stateCount, isStateEv]
  · unfold connectingAfterFailed
    rw [hevs]
    simp only [runStart, update_connection_state, List.append_assoc, List.cons_append,
      List.nil_append]
    rw [dropWhile_cons_true _ _ _ rfl, dropWhile_cons_true _ _ _ rfl,
      dropWhile_append_of_forall _ pre _
        (fun x hx => by simp [benignB_failed x (hpre x hx)]),
      dropWhile_cons_true _ _ _ rfl, dropWhile_cons_false _ _ _ rfl]
    rfl

def wBudget0 : WorkerState :=
  { initWorker [] with
    strategy := { retry_count := 0, max_retries := some 0, base_delay := 1, max_delay := 60 } }

/-- C2 witness: a worker with an exhausted budget (`max_retries = 0`) and one
failing connect attempt. -/
theorem C2_witness :
    ((maintainConnection (runStart wBudget0).1 [failAttempt "boom"]).2.2 =
        MaintainOutcome.raised "boom")
    ∧ (stateCount ConnectionState.failed (runWorker wBudget0 [failAttempt "boom"]).2.1 = 2
      ∧ connectingAfterFailed (runWorker wBudget0 [failAttempt "boom"]).2.1 = false) :=
  ⟨by decide, C2_exhaustion_two_failed wBudget0 [failAttempt "boom"] "boom" (by decide)⟩

/-- C2 counterexample: retry exhaustion emits TWO `FAILED` state transitions
(`Max retries exceeded: boom`, then `Fatal error: boom` from `run`'s handler),
refuting "exactly one Failed state transition". -/
theorem C2_counterexample :
    stateCount ConnectionState.failed (runWorker wBudget0 [failAttempt "boom"]).2.1 = 2 := by
  decide

/-! ## C3: retry counts carried by consecutive-failure Reconnecting notifications -/

/-- The worker state after one failed connect attempt that the backoff policy
allows to retry. -/
def failNext (w : WorkerState) (e : String) : WorkerState :=
  { w with
    connection_state := ConnectionState.reconnecting
    last_error := e
    total_reconnect_count := w.total_reconnect_count + 1
    strategy := { w.strategy with retry_count := w.strategy.retry_count + 1 } }

theorem reconnectingCounts_append (l1 l2 : List Event) :
    reconnectingCounts (l1 ++ l2) = reconnectingCounts l1 ++ reconnectingCounts l2 := by
  simp [reconnectingCounts, List.filterMap_append]

theorem outerStep_fail (w : WorkerState) (e : String)
    (hr : w.running = true) (hmax : w.strategy.max_retries = none) :
    outerStep w (failAttempt e)
      = (failNext w e,
         [Event.stateChanged ConnectionState.connecting
            (connectingMsg (w.strategy.retry_count + 1)) 0,
          Event.connStatus true (connectingMsg (w.strategy.retry_count + 1)),
          Event.shouldRetryCalled true,
          Event.stateChanged ConnectionState.reconnecting (connFailedMsg e)
            w.strategy.retry_count,
          Event.connStatus false (connFailedMsg e),
          Event.sleep w.strategy.delay_at],
         OuterControl.continueLoop) := by
  unfold outerStep failureHandler
  simp [failAttempt, hr, ReconnectStrategy.should_retry, hmax, update_connection_state,
    ReconnectStrategy.next_delay, ReconnectStrategy.delay_at, failNext]

theorem maintain_fail_cons (w : WorkerState) (e : String) (rest : List AttemptScript)
    (hr : w.running = true) (hmax : w.strategy.max_retries = none) :
    maintainConnection w (failAttempt e :: rest)
      = ((maintainConnection (failNext w e) rest).1,
         [Event.stateChanged ConnectionState.connecting
            (connectingMsg (w.strategy.retry_count + 1)) 0,
          Event.connStatus true (connectingMsg (w.strategy.retry_count + 1)),
          Event.shouldRetryCalled true,
          Event.stateChanged ConnectionState.reconnecting (connFailedMsg e)
            w.strategy.retry_count,
          Event.connStatus false (connFailedMsg e),
          Event.sleep w.strategy.delay_at]
           ++ (maintainConnection (failNext w e) rest).2.1,
         (maintainConnection (failNext w e) rest).2.2) := by
  simp only [maintainConnection]
  rw [outerStep_fail w e hr hmax]

theorem maintain_replicate_fail (k : Nat) (w : WorkerState) (e : String)
    (rest : List AttemptScript) (hr : w.running = true)
    (hmax : w.strategy.max_retries = none) :
    ∃ w', w'.running = true ∧ w'.strategy.max_retries = none
      ∧ w'.strategy.retry_count = w.strategy.retry_count + k
      ∧ reconnectingCounts
          (maintainConnection w (List.replicate k (failAttempt e) ++ rest)).2.1
          = List.range' w.strategy.retry_count k
            ++ reconnectingCounts (maintainConnection w' rest).2.1
      ∧ (maintainConnection w (List.replicate k (failAttempt e) ++ rest)).1
          = (maintainConnection w' rest).1 := by
  induction k generalizing w with
  | zero =>
    exact ⟨w, hr, hmax, rfl, by simp [List.range'], rfl⟩
  | succ k ih =>
    rw [List.replicate_succ, List.cons_append]
    obtain ⟨w', h1, h2, h3, h4, h5⟩ :=
      ih (failNext w e) (by simp [failNext, hr]) (by simp [failNext, hmax])
    refine ⟨w', h1, h2, ?_, ?_, ?_⟩
    · rw [h3]
      simp [failNext]
      omega
    · rw [maintain_fail_cons w e _ hr hmax]
      simp only []
      rw [reconnectingCounts_append, h4]
      have hcnt : reconnectingCounts
          [Event.stateChanged ConnectionState.connecting
            (connectingMsg (w.strategy.retry_count + 1)) 0,
          Event.connStatus true (connectingMsg (w.strategy.retry_count + 1)),
          Event.shouldRetryCalled true,
          Event.stateChanged ConnectionState.reconnecting (connFailedMsg e)
            w.strategy.retry_count,
          Event.connStatus false (connFailedMsg e),
          Event.sleep w.strategy.delay_at] = [w.strategy.retry_count] := by
        simp [reconnectingCounts]
      rw [hcnt]
      have hrc : (failNext w e).strategy.retry_count = w.strategy.retry_count + 1 := rfl
      rw [hrc, List.range'_succ]
      simp
    · rw [maintain_fail_cons w e _ hr hmax]
      simp only []
      exact h5

theorem maintain_okStop (w : WorkerState) (hr : w.running = true) :
    reconnectingCounts (maintainConnection w [okStopAttempt]).2.1 = []
    ∧ (maintainConnection w [okStopAttempt]).1.strategy.retry_count = 0
    ∧ (maintainConnection w [okStopAttempt]).2.2 = MaintainOutcome.finished := by
  unfold maintainConnection outerStep connectedPhase innerLoop tickStep
  simp [okStopAttempt, stopTick, hr, update_connection_state, reconnectingCounts,
    ReconnectStrategy.reset, maintainConnection, update_stats]

/-- C3 (amended): starting from a fresh backoff state, `k` consecutive
connection failures produce `RECONNECTING` notifications carrying
`retry_count` `0, 1, ..., k-1` — i.e. the Nth consecutive-failure
notification carries `N-1`, not `N`: `_update_connection_state` reads
`retry_count` *before* `next_delay()` increments it — and after the next
successful connect the backoff `retry_count` is `0` again. -/
theorem C3_retry_counts (k : Nat) (e : String) :
    reconnectingCounts
        (maintainConnection wRun
          (List.replicate k (failAttempt e) ++ [okStopAttempt])).2.1
      = List.range k
    ∧ (maintainConnection wRun
        (List.replicate k (failAttempt e) ++ [okStopAttempt])).1.strategy.retry_count = 0 := by
  obtain ⟨w', h1, h2, h3, h4, h5⟩ := maintain_replicate_fail k wRun e [okStopAttempt] rfl rfl
  obtain ⟨hc, hrc, -⟩ := maintain_okStop w' h1
  constructor
  · rw [h4, hc]
    simp [wRun, initWorker, List.range_eq_range']
  · rw [h5, hrc]

def wBudget3 : WorkerState :=
  { initWorker ["BTC-USD"] with
    running := true
    strategy := { retry_count := 0, max_retries := some 3, base_delay := 1, max_delay := 60 } }

/-- C3 counterexample: the spec's own scenario (budget 3, persistent
handshake failure) produces `RECONNECTING` notifications with retry_count
`0, 1, 2` — not `1, 2, 3` — before the terminal failure. -/
theorem C3_counterexample :
    reconnectingCounts
        (maintainConnection wBudget3
          (List.replicate 4 (failAttempt "handshake failure"))).2.1 = [0, 1, 2]
    ∧ (maintainConnection wBudget3
        (List.replicate 4 (failAttempt "handshake failure"))).2.2 =
      MaintainOutcome.raised "handshake failure"
    ∧ ([0, 1, 2] : List Nat) ≠ [1, 2, 3] := by
  refine ⟨by decide, by decide, by decide⟩

def busyTick : TickInput :=
  { stopRequested := false, cancelAtSleep := false, msgUpdate := some 1, pairsNow := ["BTC-USD"],
    subsResult := Except.ok ["BTC-USD"], timePingCheck := 25, pingResult := none,
    timePingStamp := 25, timeSilence := 100 }

/-- C6 witness: a tick on which all three phases fire — the desired set
differs from the subscribed set, a ping is due, and the peer has gone
silent. -/
theorem C6_witness :
    (wRun.running = true ∧ busyTick.stopRequested = false ∧ busyTick.cancelAtSleep = false
      ∧ busyTick.subsResult = Except.ok ["BTC-USD"] ∧ busyTick.pingResult = none)
    ∧ (tickStep wRun 0 busyTick).2.2.1 =
        [Event.sleep 1]
        ++ (if busyTick.pairsNow.toFinset = wRun.subscribed_pairs.toFinset then []
            else [Event.updateSubscriptionsCalled])
        ++ (if ratSub busyTick.timePingCheck 0 > wRun.ping_interval then [Event.pingSent]
            else [])
        ++ (if (busyTick.msgUpdate.getD wRun.last_message_time) > 0
              ∧ ratSub busyTick.timeSilence (busyTick.msgUpdate.getD wRun.last_message_time) >
                wRun.connection_timeout
            then
              [Event.stateChanged ConnectionState.reconnecting
                 (heartbeatMsg (ratSub busyTick.timeSilence
                   (busyTick.msgUpdate.getD wRun.last_message_time)))
                 wRun.strategy.retry_count,
               Event.connStatus false
                 (heartbeatMsg (ratSub busyTick.timeSilence
                   (busyTick.msgUpdate.getD wRun.last_message_time)))]
            else []) :=
  ⟨⟨rfl, rfl, rfl, rfl, rfl⟩, C6_tick_order wRun 0 busyTick ["BTC-USD"] rfl rfl rfl rfl rfl⟩
